import Mathlib

/-!
Verification development for the upload-and-annotate service in `src/main.py`.

The embedding works over `List Char` for all text scanning so that every
definition is a plain structural recursion the kernel can evaluate.  Strings
enter and leave through `String.data` / `String.mk`.  Recursions that skip a
separator use an explicit fuel argument initialised with the input length; a
step always consumes at least one character and one unit of fuel, so the fuel
never runs out before the input does and the functions compute exactly the
Python behaviour.
-/

/-- Boolean test that `p` is a prefix of the second list, written by direct
recursion so proofs can induct on it. -/
def startsWithL : List Char → List Char → Bool
  | [], _ => true
  | _ :: _, [] => false
  | p :: ps, c :: cs => p == c && startsWithL ps cs

/-- Python `p in s` for a fixed pattern `p`: does `p` occur as a contiguous
substring of the list? -/
def occursL (p : List Char) : List Char → Bool
  | [] => false
  | c :: rest => startsWithL p (c :: rest) || occursL p rest

/-- Characters strictly before the first occurrence of `p` (the whole list if
`p` does not occur). -/
def beforeFirstL (p : List Char) : List Char → List Char
  | [] => []
  | c :: rest => if startsWithL p (c :: rest) then [] else c :: beforeFirstL p rest

/-- Characters strictly after the first occurrence of `p` (`[]` if `p` does
not occur). -/
def afterFirstL (p : List Char) : List Char → List Char
  | [] => []
  | c :: rest =>
    if startsWithL p (c :: rest) then (c :: rest).drop p.length
    else afterFirstL p rest

/-- Python `str.split(sep)` for a non-empty separator `p`, over char lists:
scan left to right, cut at every non-overlapping occurrence of `p`.  The fuel
is initialised with the input length by the callers. -/
def splitL (p : List Char) : Nat → List Char → List (List Char)
  | 0, cs => [cs]
  | _ + 1, [] => [[]]
  | fuel + 1, c :: rest =>
    if startsWithL p (c :: rest) then
      [] :: splitL p fuel ((c :: rest).drop p.length)
    else
      match splitL p fuel rest with
      | [] => [[c]]
      | seg :: segs => (c :: seg) :: segs

/-- The literal marker `"Relevant URLs:"` from `extract_urls_from_response`. -/
def marker : List Char := "Relevant URLs:".data

/-- `response_text.split("Relevant URLs:")` from `src/main.py` line 37. -/
def splitOnMarker (cs : List Char) : List (List Char) := splitL marker cs.length cs

/-- The character class `["\']` of the regex `<a href=["\']([^"\']+)["\']`:
a double or single quote.  (`Char.ofNat 39` is the single-quote character.) -/
def isQuote (c : Char) : Bool := c == '"' || c == Char.ofNat 39

/-- The literal part `<a href=` of the anchor regex. -/
def anchorOpen : List Char := "<a href=".data

/-- One attempted match of the regex `<a href=["\']([^"\']+)["\']` at the head
of `cs`.  On success it returns the captured group (the quoted value) and the
characters after the whole match.  The capture class excludes both quote
characters, so the greedy `+` is a maximal run of non-quote characters
followed by a mandatory quote: no backtracking can occur. -/
def matchAnchor (cs : List Char) : Option (String × List Char) :=
  if startsWithL anchorOpen cs then
    match cs.drop 8 with
    | [] => none
    | q :: rest2 =>
      if isQuote q then
        match rest2.takeWhile (fun ch => !(isQuote ch)),
              rest2.dropWhile (fun ch => !(isQuote ch)) with
        | [], _ => none
        | _, [] => none
        | run, _ :: rest3 => some (String.mk run, rest3)
      else none
  else none

/-- Python `re.findall(pattern, s)` for the anchor regex: scan left to right,
at each position try to match; on success record the capture and continue
after the match, otherwise advance one character. -/
def findallAnchorsF : Nat → List Char → List String
  | 0, _ => []
  | _ + 1, [] => []
  | fuel + 1, c :: rest =>
    match matchAnchor (c :: rest) with
    | some (url, remaining) => url :: findallAnchorsF fuel remaining
    | none => findallAnchorsF fuel rest

/-- All captures of the anchor regex in `cs`, in scan order. -/
def findallAnchorsL (cs : List Char) : List String := findallAnchorsF cs.length cs

/-- `extract_urls_from_response` from `src/main.py` lines 35-45: split on the
marker; with fewer than two segments return `[]`; otherwise run the regex over
segment 1 and deduplicate.  Python's `list(set(urls))` has unspecified order,
so the model returns a deduplicated list and theorems about it are stated
order-insensitively (membership and `Nodup`). -/
def extract_urls_from_response (response_text : String) : List String :=
  match splitOnMarker response_text.data with
  | _ :: urls_section :: _ => (findallAnchorsL urls_section).dedup
  | _ => []

/-- Reading of claim C2 (not of the code): scan the whole suffix after the
first marker occurrence, however many later occurrences it contains.  Kept
separate so it can be compared with `extract_urls_from_response`. -/
def extract_urls_claim_reading (response_text : String) : List String :=
  if occursL marker response_text.data then
    (findallAnchorsL (afterFirstL marker response_text.data)).dedup
  else []

/-- A spreadsheet cell value as pandas hands it to the row loop: a text
string, or some non-string scalar such as a number (whose exact numeric type
is irrelevant to the control flow, which only calls `.strip()` on it). -/
inductive CellVal where
  | str : String → CellVal
  | num : Int → CellVal
deriving DecidableEq

/-- A cell: `none` models a missing value (pandas `NaN`, true for `pd.isna`). -/
abbrev Cell := Option CellVal

/-- One row, as an association list from column name to cell. -/
abbrev Row := List (String × Cell)

/-- The tabular structure loaded by `pd.read_excel` / `pd.read_csv`. -/
structure DataFrame where
  columns : List String
  rows : List Row
deriving DecidableEq

/-- Well-formedness of a frame produced by pandas: column names are distinct
and every row has exactly the frame's columns as keys, in order. -/
def DFWF (df : DataFrame) : Prop :=
  df.columns.Nodup ∧ ∀ row ∈ df.rows, row.map Prod.fst = df.columns

/-- First cell stored under column `c` in the row (`none` if no such key). -/
def rowGet : Row → String → Option Cell
  | [], _ => none
  | p :: rest, c => if p.1 == c then some p.2 else rowGet rest c

/-- Python `row.get("Question", "")`: the stored cell when the key exists
(possibly `NaN`), the default empty string when the key is absent. -/
def rowGetD (row : Row) (c : String) : Cell :=
  match rowGet row c with
  | some v => v
  | none => some (CellVal.str "")

/-- Does the row have a cell under column `c`? -/
def hasKey : Row → String → Bool
  | [], _ => false
  | p :: rest, c => p.1 == c || hasKey rest c

/-- `df.at[index, c] = v` restricted to one row: overwrite the value stored
under an existing key `c` (all call sites have ensured the column exists). -/
def setCell : Row → String → Cell → Row
  | [], _, _ => []
  | p :: rest, c, v => (if p.1 == c then (p.1, v) else p) :: setCell rest c v

/-- The ten evaluation metric columns from `src/main.py` lines 105-116. -/
def evaluation_metrics : List String :=
  ["Relevance", "Accuracy", "Clarity", "Tone and Politeness", "Completeness",
   "Engagement", "User Satisfaction", "Bias and Ethical",
   "Cross-Session Continuity", "Information Provenance"]

/-- The two derived result columns prepared at lines 124-129. -/
def derived_columns : List String := ["Extracted Text", "Extracted URL"]

/-- Every column the handler appends when missing, in source order. -/
def all_added_columns : List String := evaluation_metrics ++ derived_columns

/-- `if c not in df.columns: df[c] = ""`: append the column with empty-string
cells in every row, or leave the frame untouched when it is already there. -/
def addColIfMissing (df : DataFrame) (c : String) : DataFrame :=
  if df.columns.contains c then df
  else { columns := df.columns ++ [c],
         rows := df.rows.map (fun r => r ++ [(c, some (CellVal.str ""))]) }

/-- Lines 118-129: ensure metric and result columns exist. -/
def ensureColumns (df : DataFrame) : DataFrame :=
  all_added_columns.foldl addColIfMissing df

/-- Outcome of one `requests.post` call, as the row loop observes it: an HTTP
reply carrying the parsed body's `message` field (`none` when the JSON has no
such field), or a raised `requests.exceptions.RequestException`. -/
inductive ApiOutcome where
  | response (status : Nat) (message : Option String)
  | exn
deriving DecidableEq

/-- The environment of one request: the remote API's behaviour per row index,
what `datetime.now()` renders as during the request, and what pandas produces
from the uploaded bytes (`Except.error` models a parse exception, which the
handler's outer `try` turns into a JSON error). -/
structure Env where
  api : Nat → ApiOutcome
  stamp : String
  parse : Except String DataFrame

/-- The sanitized filename prefix of `save_message_to_file` line 51:
alphanumeric characters kept, everything else replaced by an underscore,
truncated to 30 characters. -/
def sanitize_question (q : String) : String :=
  String.mk ((q.data.map (fun c => if c.isAlphanum then c else '_')).take 30)

/-- The path of the artifact file written by `save_message_to_file`
(lines 50-53): `messages/<sanitized question>_<timestamp>.json`. -/
def save_message_to_file_path (question stamp : String) : String :=
  "messages/" ++ (sanitize_question question ++ "_" ++ stamp ++ ".json")

/-- Sentinel written on a non-200 status, line 157. -/
def api_error_text : String := "Error: Failed to get response from API"

/-- Sentinel written on a transport exception, line 161. -/
def request_error_text : String := "Error: API request failed"

/-- Sentinel for an empty URL list, lines 150 and 158. -/
def no_url_text : String := "No URL found"

/-- The column name `"Extracted Text"`. -/
def extracted_text_col : String := "Extracted Text"

/-- The column name `"Extracted URL"`. -/
def extracted_url_col : String := "Extracted URL"

/-- Message of the `AttributeError` raised by `question.strip()` when the
cell holds a non-string scalar (line 137); the exact Python wording depends
on the scalar's type and is abstracted by this constant. -/
def strip_attribute_error_message : String :=
  "AttributeError: the Question value has no strip method"

/-- ASCII whitespace as Python `str.strip` removes it. -/
def pythonWhitespace (c : Char) : Bool :=
  c == ' ' || c == Char.ofNat 9 || c == Char.ofNat 10 || c == Char.ofNat 13 ||
  c == Char.ofNat 11 || c == Char.ofNat 12

/-- Python truthiness of `question.strip()`: the stripped string is non-empty
exactly when some character is not whitespace. -/
def pyStripTruthy (s : String) : Bool := s.data.any (fun c => !(pythonWhitespace c))

/-- Python `"\n".join(urls)`. -/
def joinNL : List String → String
  | [] => ""
  | [u] => u
  | u :: rest => u ++ "\n" ++ joinNL rest

/-- Does the row loop skip this cell (line 137's `not pd.isna(question) and
question.strip()` evaluating falsy without raising)?  `true` for a missing
value and for a blank string. -/
def isSkippedQuestion : Cell → Bool
  | none => true
  | some (CellVal.str s) => !(pyStripTruthy s)
  | some (CellVal.num _) => false

/-- Is the cell one the row loop can consume without raising: missing, or a
string?  `false` exactly for a non-string scalar, where `.strip()` raises. -/
def isTextualCell : Cell → Bool
  | none => true
  | some (CellVal.str _) => true
  | some (CellVal.num _) => false

/-- The body of the row loop, `src/main.py` lines 135-162, for one row.
`Except.error` models an exception escaping the loop to the handler's outer
`try` (only `question.strip()` on a non-string scalar does so: the inner
`try` catches every `RequestException`).  On success it returns the updated
row together with the paths of the artifact files written for this row.
The request payload also carries `product` and `version`, but the remote
outcome is already fixed by `env.api`, so they do not appear here. -/
def processRowStep (env : Env) (idx : Nat) (row : Row) :
    Except String (Row × List String) :=
  match rowGetD row "Question" with
  | none => Except.ok (row, [])
  | some (CellVal.num _) => Except.error strip_attribute_error_message
  | some (CellVal.str q) =>
    if pyStripTruthy q then
      match env.api idx with
      | ApiOutcome.response status msg =>
        if status == 200 then
          let response_text := msg.getD ""
          let extracted_urls := extract_urls_from_response response_text
          let row1 := setCell row extracted_text_col (some (CellVal.str response_text))
          let row2 := setCell row1 extracted_url_col
            (some (CellVal.str
              (if extracted_urls.isEmpty then no_url_text else joinNL extracted_urls)))
          Except.ok (row2, [save_message_to_file_path q env.stamp])
        else
          let row1 := setCell row extracted_text_col (some (CellVal.str api_error_text))
          let row2 := setCell row1 extracted_url_col (some (CellVal.str no_url_text))
          Except.ok (row2, [])
      | ApiOutcome.exn =>
        let row1 := setCell row extracted_text_col (some (CellVal.str request_error_text))
        let row2 := setCell row1 extracted_url_col (some (CellVal.str no_url_text))
        Except.ok (row2, [])
    else Except.ok (row, [])

/-- The whole row loop: rows processed strictly in order, one at a time.  The
first component collects artifact paths written before the loop ends or an
exception escapes; the second is the processed rows, or the escaping
exception's message. -/
def processAllRows (env : Env) : Nat → List Row → List String × Except String (List Row)
  | _, [] => ([], Except.ok [])
  | idx, row :: rest =>
    match processRowStep env idx row with
    | Except.error e => ([], Except.error e)
    | Except.ok (row2, arts) =>
      match processAllRows env (idx + 1) rest with
      | (arts2, Except.error e) => (arts ++ arts2, Except.error e)
      | (arts2, Except.ok rows2) => (arts ++ arts2, Except.ok (row2 :: rows2))

/-- `os.path.splitext(filename)[1].lower()` for ordinary filenames: the
substring from the last dot on, lowercased; empty when there is no dot.
(Python's special handling of all-leading-dot names is not modelled; every
name the handler distinguishes has a normal `name.ext` shape.) -/
def ext_lower (filename : String) : String :=
  if filename.data.contains '.' then
    String.mk ('.' :: ((filename.data.reverse.takeWhile (fun c => !(c == '.'))).reverse.map Char.toLower))
  else ""

/-- Error body returned for an unsupported extension, line 97. -/
def unsupported_format_error : String :=
  "Unsupported file format. Upload Excel or CSV files."

/-- Error body returned when the `Question` column is missing, line 102 (the
quotes around the column name are single-quote characters). -/
def missing_question_error : String :=
  String.mk ("The uploaded file must contain a ".data ++ [Char.ofNat 39] ++
    "Question".data ++ [Char.ofNat 39] ++ " column.".data)

/-- What the endpoint hands back: a `FileResponse` of the written output file
(the model also carries the final table the file serialises), or a JSON
object with an `error` field. -/
inductive HandlerResult where
  | fileResponse (path : String) (filename : String) (table : DataFrame)
  | jsonError (message : String)
deriving DecidableEq

/-- Observable outcome of one request: the returned value plus the paths of
every file the handler wrote, in write order. -/
structure RunResult where
  result : HandlerResult
  writes : List String
deriving DecidableEq

/-- The `/upload-file/` handler `process_file`, lines 72-177.  The uploaded
bytes are saved to `output/<filename>` first (lines 84-87); then the
extension decides between loading and the unsupported-format error; then the
`Question` check, the column preparation, the row loop, and the timestamped
output file.  The outer `except` turns any escaping exception (parse failure,
`.strip()` on a non-string) into a JSON error with the exception's message. -/
def process_file (env : Env) (filename product version : String) : RunResult :=
  let input_filepath := "output/" ++ filename
  let ext := ext_lower filename
  if ext == ".xlsx" || ext == ".csv" then
    match env.parse with
    | Except.error e =>
        { result := HandlerResult.jsonError e, writes := [input_filepath] }
    | Except.ok df =>
      if df.columns.contains "Question" then
        let df2 := ensureColumns df
        match processAllRows env 0 df2.rows with
        | (arts, Except.error e) =>
            { result := HandlerResult.jsonError e,
              writes := input_filepath :: arts }
        | (arts, Except.ok rows2) =>
            let output_filename := "processed_" ++ env.stamp ++ ext
            let output_filepath := "output/" ++ output_filename
            { result := HandlerResult.fileResponse output_filepath output_filename
                { columns := df2.columns, rows := rows2 },
              writes := input_filepath :: arts ++ [output_filepath] }
      else
        { result := HandlerResult.jsonError missing_question_error,
          writes := [input_filepath] }
  else
    { result := HandlerResult.jsonError unsupported_format_error,
      writes := [input_filepath] }

/-- Table carried by a `fileResponse` (the empty frame otherwise). -/
def resultTable : HandlerResult → DataFrame
  | HandlerResult.fileResponse _ _ t => t
  | HandlerResult.jsonError _ => { columns := [], rows := [] }

/-- Path carried by a `fileResponse` (empty otherwise). -/
def resultPath : HandlerResult → String
  | HandlerResult.fileResponse p _ _ => p
  | HandlerResult.jsonError _ => ""

/-- Download filename carried by a `fileResponse` (empty otherwise). -/
def resultName : HandlerResult → String
  | HandlerResult.fileResponse _ n _ => n
  | HandlerResult.jsonError _ => ""

/-- Concrete response text in which the marker occurs twice, used to separate
the code's behaviour from claim C2's reading. -/
def c2_input : String :=
  "Relevant URLs: <a href=\"u1\">x</a> and Relevant URLs: <a href=\"u2\">y</a>"

/-- A small well-formed frame: a textual question, a missing one, a blank one. -/
def dfW1 : DataFrame :=
  { columns := ["Question"],
    rows := [[("Question", some (CellVal.str "What is X?"))],
             [("Question", none)],
             [("Question", some (CellVal.str "   "))]] }

/-- An environment whose remote API fails in both ways: a transport exception
for row 0, HTTP 500 for every later row. -/
def envW1 : Env :=
  { api := fun i => if i == 0 then ApiOutcome.exn else ApiOutcome.response 500 none,
    stamp := "20250101_120000",
    parse := Except.ok dfW1 }

/-- Same request data as `envW1` but a clock one second later. -/
def envW4b : Env :=
  { api := fun _ => ApiOutcome.exn,
    stamp := "20250101_120001",
    parse := Except.ok dfW1 }

/-- A row that already has both derived columns, as every row does once the
handler has prepared the frame. -/
def rowW5 : Row :=
  [("Question", some (CellVal.str "Q1")),
   ("Extracted Text", some (CellVal.str "")),
   ("Extracted URL", some (CellVal.str ""))]

/-- An environment whose remote API always answers HTTP 500. -/
def envW5 : Env :=
  { api := fun _ => ApiOutcome.response 500 none,
    stamp := "20250101_130000",
    parse := Except.ok dfW1 }

/-- A frame with one pre-existing metric column (`Relevance`) holding a value
that must survive processing. -/
def dfW9 : DataFrame :=
  { columns := ["Question", "Relevance"],
    rows := [[("Question", some (CellVal.str "Q1")),
              ("Relevance", some (CellVal.str "5"))]] }

/-- Environment for the `dfW9` run. -/
def envW9 : Env :=
  { api := fun _ => ApiOutcome.response 500 none,
    stamp := "20250101_140000",
    parse := Except.ok dfW9 }

/-- A frame whose single `Question` cell holds a number, not a string. -/
def dfW10 : DataFrame :=
  { columns := ["Question"],
    rows := [[("Question", some (CellVal.num 3))]] }

/-- Environment for the `dfW10` run; the API would even succeed. -/
def envW10 : Env :=
  { api := fun _ => ApiOutcome.response 200 (some "hi"),
    stamp := "20250101_150000",
    parse := Except.ok dfW10 }

theorem startsWithL_iff (p : List Char) : ∀ l, startsWithL p l = true ↔ ∃ t, l = p ++ t := by
  induction p with
  | nil =>
    intro l
    simp only [startsWithL, List.nil_append, true_iff]
    exact ⟨l, rfl⟩
  | cons a as ih =>
    intro l
    cases l with
    | nil =>
      simp [startsWithL]
    | cons c cs =>
      simp only [startsWithL, Bool.and_eq_true, beq_iff_eq, ih, List.cons_append,
        List.cons.injEq]
      constructor
      · rintro ⟨rfl, t, rfl⟩
        exact ⟨t, rfl, rfl⟩
      · rintro ⟨t, rfl, rfl⟩
        exact ⟨rfl, t, rfl⟩

theorem startsWithL_append_of (p l t : List Char) (h : startsWithL p l = true) :
    startsWithL p (l ++ t) = true := by
  rcases (startsWithL_iff p l).mp h with ⟨u, rfl⟩
  exact (startsWithL_iff p _).mpr ⟨u ++ t, by simp⟩

theorem marker_ne_nil : marker ≠ [] := by decide

theorem occursL_iff (p : List Char) (hp : p ≠ []) :
    ∀ cs, occursL p cs = true ↔ ∃ l r, cs = l ++ p ++ r := by
  intro cs
  induction cs with
  | nil =>
    constructor
    · intro h
      simp [occursL] at h
    · rintro ⟨l, r, h⟩
      exfalso
      rcases List.append_eq_nil.mp h.symm with ⟨h1, -⟩
      rcases List.append_eq_nil.mp h1 with ⟨-, h2⟩
      exact hp h2
  | cons c rest ih =>
    simp only [occursL, Bool.or_eq_true]
    constructor
    · rintro (h | h)
      · rcases (startsWithL_iff p _).mp h with ⟨t, ht⟩
        exact ⟨[], t, by simpa using ht⟩
      · rcases ih.mp h with ⟨l, r, hr⟩
        exact ⟨c :: l, r, by simp [hr]⟩
    · rintro ⟨l, r, h⟩
      cases l with
      | nil =>
        left
        exact (startsWithL_iff p _).mpr ⟨r, by simpa using h⟩
      | cons d l2 =>
        right
        have hcd : c = d ∧ rest = l2 ++ p ++ r := by
          simpa using h
        exact ih.mpr ⟨l2, r, hcd.2⟩

theorem beforeFirstL_append (p : List Char) : ∀ cs, ∃ t, cs = beforeFirstL p cs ++ t := by
  intro cs
  induction cs with
  | nil => exact ⟨[], rfl⟩
  | cons c rest ih =>
    cases hsw : startsWithL p (c :: rest) with
    | true => exact ⟨c :: rest, by simp [beforeFirstL, hsw]⟩
    | false =>
      rcases ih with ⟨t, ht⟩
      exact ⟨t, by simp only [beforeFirstL, hsw]; simpa using congrArg (c :: ·) ht⟩

theorem occursL_beforeFirstL (p : List Char) : ∀ cs, occursL p (beforeFirstL p cs) = false := by
  intro cs
  induction cs with
  | nil => rfl
  | cons c rest ih =>
    cases hsw : startsWithL p (c :: rest) with
    | true => simp [beforeFirstL, hsw, occursL]
    | false =>
      simp only [beforeFirstL, hsw, if_false, Bool.false_eq_true]
      cases hsw2 : startsWithL p (c :: beforeFirstL p rest) with
      | false => simp [occursL, hsw2, ih]
      | true =>
        exfalso
        rcases beforeFirstL_append p rest with ⟨t, ht⟩
        have h2 := startsWithL_append_of p (c :: beforeFirstL p rest) t hsw2
        rw [List.cons_append, ← ht] at h2
        rw [h2] at hsw
        cases hsw

theorem occursL_decomp (p : List Char) : ∀ cs, occursL p cs = true →
    cs = beforeFirstL p cs ++ p ++ afterFirstL p cs := by
  intro cs
  induction cs with
  | nil => intro h; cases h
  | cons c rest ih =>
    intro h
    cases hsw : startsWithL p (c :: rest) with
    | true =>
      rcases (startsWithL_iff p _).mp hsw with ⟨t, ht⟩
      simp only [beforeFirstL, afterFirstL, hsw, if_true, List.nil_append]
      rw [ht, List.drop_left]
    | false =>
      have hor : occursL p rest = true := by
        have := h
        simp only [occursL, hsw, Bool.false_or] at this
        exact this
      simp only [beforeFirstL, afterFirstL, hsw, if_false]
      have := ih hor
      calc c :: rest = c :: (beforeFirstL p rest ++ p ++ afterFirstL p rest) := by rw [← this]
        _ = c :: beforeFirstL p rest ++ p ++ afterFirstL p rest := by simp

theorem splitL_fuel (p : List Char) (hp : p ≠ []) :
    ∀ f1 f2 cs, cs.length ≤ f1 → cs.length ≤ f2 → splitL p f1 cs = splitL p f2 cs := by
  intro f1
  induction f1 with
  | zero =>
    intro f2 cs h1 _
    have hnil : cs = [] := List.eq_nil_of_length_eq_zero (Nat.le_zero.mp h1)
    subst hnil
    cases f2 <;> rfl
  | succ f ih =>
    intro f2 cs h1 h2
    cases cs with
    | nil => cases f2 <;> rfl
    | cons c rest =>
      cases f2 with
      | zero => simp at h2
      | succ f2b =>
        have hp1 : 0 < p.length := List.length_pos.mpr hp
        simp only [List.length_cons] at h1 h2
        cases hsw : startsWithL p (c :: rest) with
        | true =>
          have hd1 : ((c :: rest).drop p.length).length ≤ f := by
            simp only [List.length_drop, List.length_cons]
            omega
          have hd2 : ((c :: rest).drop p.length).length ≤ f2b := by
            simp only [List.length_drop, List.length_cons]
            omega
          simp [splitL, hsw, ih f2b _ hd1 hd2]
        | false =>
          have hr1 : rest.length ≤ f := by omega
          have hr2 : rest.length ≤ f2b := by omega
          simp [splitL, hsw, ih f2b rest hr1 hr2]

theorem splitL_not_occurs (p : List Char) :
    ∀ fuel cs, cs.length ≤ fuel → occursL p cs = false → splitL p fuel cs = [cs] := by
  intro fuel
  induction fuel with
  | zero => intro cs _ _; rfl
  | succ f ih =>
    intro cs hlen hocc
    cases cs with
    | nil => rfl
    | cons c rest =>
      simp only [occursL, Bool.or_eq_false_iff] at hocc
      have hrec : splitL p f rest = [rest] := by
        apply ih rest ?_ hocc.2
        simp only [List.length_cons] at hlen
        omega
      simp [splitL, hocc.1, hrec]

theorem splitL_occurs (p : List Char) (hp : p ≠ []) :
    ∀ fuel cs, cs.length ≤ fuel → occursL p cs = true →
      splitL p fuel cs =
        beforeFirstL p cs ::
          splitL p (afterFirstL p cs).length (afterFirstL p cs) := by
  intro fuel
  induction fuel with
  | zero =>
    intro cs hlen hocc
    have hnil : cs = [] := List.eq_nil_of_length_eq_zero (Nat.le_zero.mp hlen)
    subst hnil
    cases hocc
  | succ f ih =>
    intro cs hlen hocc
    cases cs with
    | nil => cases hocc
    | cons c rest =>
      have hp1 : 0 < p.length := List.length_pos.mpr hp
      simp only [List.length_cons] at hlen
      cases hsw : startsWithL p (c :: rest) with
      | true =>
        have hd1 : ((c :: rest).drop p.length).length ≤ f := by
          simp only [List.length_drop, List.length_cons]
          omega
        simp only [splitL, beforeFirstL, afterFirstL, hsw, if_true]
        rw [splitL_fuel p hp f _ _ hd1 (le_refl _)]
      | false =>
        have hocc2 : occursL p rest = true := by
          have := hocc
          simp only [occursL, hsw, Bool.false_or] at this
          exact this
        have hr : rest.length ≤ f := by omega
        simp [splitL, beforeFirstL, afterFirstL, hsw, ih rest hr hocc2]

/-- C7: for every response text that does not contain the literal marker
`"Relevant URLs:"` as a substring, `extract_urls_from_response` returns the
empty collection.  Containment is stated as an explicit decomposition
`s.data = l ++ marker ++ r`, which `occursL_iff` proves equivalent to the
scanner's notion. -/
theorem c7_no_marker_empty_result (s : String)
    (h : ¬ ∃ l r, s.data = l ++ marker ++ r) :
    extract_urls_from_response s = [] := by
  have hocc : occursL marker s.data = false := by
    cases hv : occursL marker s.data with
    | false => rfl
    | true => exact absurd ((occursL_iff marker marker_ne_nil s.data).mp hv) h
  have hsplit : splitOnMarker s.data = [s.data] :=
    splitL_not_occurs marker _ s.data (le_refl _) hocc
  simp [extract_urls_from_response, hsplit]

theorem c7_no_marker_empty_result_witness :
    extract_urls_from_response "hello world, no links" = [] :=
  c7_no_marker_empty_result "hello world, no links"
    (fun hex =>
      absurd ((occursL_iff marker marker_ne_nil "hello world, no links".data).mpr hex)
        (by decide))

/-- C2 (amended): when the marker occurs and occurs again after its first
occurrence (that is, it appears two or more times), the extractor scans only
the text strictly between the first and the second occurrence — not the whole
suffix after the first occurrence — and returns the deduplicated captures
found there. -/
theorem c2_between_first_and_second_marker (s : String)
    (h1 : occursL marker s.data = true)
    (h2 : occursL marker (afterFirstL marker s.data) = true) :
    extract_urls_from_response s =
      (findallAnchorsL (beforeFirstL marker (afterFirstL marker s.data))).dedup := by
  have hs1 : splitOnMarker s.data =
      beforeFirstL marker s.data ::
        splitL marker (afterFirstL marker s.data).length (afterFirstL marker s.data) :=
    splitL_occurs marker marker_ne_nil _ _ (le_refl _) h1
  have hs2 : splitL marker (afterFirstL marker s.data).length (afterFirstL marker s.data) =
      beforeFirstL marker (afterFirstL marker s.data) ::
        splitL marker (afterFirstL marker (afterFirstL marker s.data)).length
          (afterFirstL marker (afterFirstL marker s.data)) :=
    splitL_occurs marker marker_ne_nil _ _ (le_refl _) h2
  simp [extract_urls_from_response, hs1, hs2]

theorem c2_between_first_and_second_marker_witness :
    extract_urls_from_response c2_input =
      (findallAnchorsL (beforeFirstL marker (afterFirstL marker c2_input.data))).dedup :=
  c2_between_first_and_second_marker c2_input (by decide) (by decide)

/-- C2 is false of the code as stated: on `c2_input` the marker occurs twice,
the anchor value `u2` sits after the second occurrence (so inside the suffix
after the first occurrence, as witnessed by `extract_urls_claim_reading`),
yet the extractor does not return it — it only returns `u1`. -/
theorem c2_counterexample :
    occursL marker c2_input.data = true ∧
    occursL marker (afterFirstL marker c2_input.data) = true ∧
    "u2" ∈ extract_urls_claim_reading c2_input ∧
    "u2" ∉ extract_urls_from_response c2_input ∧
    extract_urls_from_response c2_input = ["u1"] := by
  decide

/-- C8: the extractor's result never contains a duplicate URL string — it is
`list(set(urls))` in the source, modelled by `List.dedup`. -/
theorem c8_no_duplicates (s : String) : (extract_urls_from_response s).Nodup := by
  rcases hsp : splitOnMarker s.data with - | ⟨a, tail⟩
  · simp [extract_urls_from_response, hsp]
  · rcases tail with - | ⟨b, tail2⟩
    · simp [extract_urls_from_response, hsp]
    · simp [extract_urls_from_response, hsp, List.nodup_dedup]

theorem rowGet_setCell_ne (row : Row) (c : String) (v : Cell) (m : String) (hm : m ≠ c) :
    rowGet (setCell row c v) m = rowGet row m := by
  induction row with
  | nil => rfl
  | cons p rest ih =>
    by_cases hpc : p.1 = c
    · have h1 : (p.1 == c) = true := beq_iff_eq.mpr hpc
      have h2 : (p.1 == m) = false :=
        beq_eq_false_iff_ne.mpr (by rw [hpc]; exact Ne.symm hm)
      simp [setCell, rowGet, h1, h2, ih]
    · have h1 : (p.1 == c) = false := beq_eq_false_iff_ne.mpr hpc
      by_cases hpm : p.1 = m
      · simp [setCell, rowGet, h1, beq_iff_eq.mpr hpm]
      · simp [setCell, rowGet, h1, beq_eq_false_iff_ne.mpr hpm, ih]

theorem rowGet_setCell_same (row : Row) (c : String) (v : Cell)
    (h : hasKey row c = true) : rowGet (setCell row c v) c = some v := by
  induction row with
  | nil => cases h
  | cons p rest ih =>
    by_cases hpc : p.1 = c
    · simp [setCell, rowGet, beq_iff_eq.mpr hpc]
    · have h1 : (p.1 == c) = false := beq_eq_false_iff_ne.mpr hpc
      have h2 : hasKey rest c = true := by simpa [hasKey, h1] using h
      simp [setCell, rowGet, h1, ih h2]

theorem hasKey_setCell (row : Row) (c : String) (v : Cell) (m : String) :
    hasKey (setCell row c v) m = hasKey row m := by
  induction row with
  | nil => rfl
  | cons p rest ih =>
    by_cases hpc : p.1 = c
    · simp [setCell, hasKey, beq_iff_eq.mpr hpc, ih]
    · simp [setCell, hasKey, beq_eq_false_iff_ne.mpr hpc, ih]

theorem rowGet_append_single_ne (r : Row) (c : String) (e : Cell) (m : String)
    (hm : m ≠ c) : rowGet (r ++ [(c, e)]) m = rowGet r m := by
  induction r with
  | nil =>
    simp [rowGet, beq_eq_false_iff_ne.mpr (Ne.symm hm)]
  | cons p rest ih =>
    by_cases hpm : p.1 = m
    · simp [rowGet, List.cons_append, beq_iff_eq.mpr hpm]
    · simp [rowGet, List.cons_append, beq_eq_false_iff_ne.mpr hpm, ih]

theorem rowGet_append_single_self (r : Row) (c : String) (e : Cell)
    (h : rowGet r c = none) : rowGet (r ++ [(c, e)]) c = some e := by
  induction r with
  | nil => simp [rowGet]
  | cons p rest ih =>
    by_cases hpc : p.1 = c
    · rw [show rowGet (p :: rest) c = some p.2 by simp [rowGet, beq_iff_eq.mpr hpc]] at h
      cases h
    · have h1 : (p.1 == c) = false := beq_eq_false_iff_ne.mpr hpc
      have h2 : rowGet rest c = none := by simpa [rowGet, h1] using h
      simp [rowGet, List.cons_append, h1, ih h2]

theorem rowGet_eq_none_of_not_mem (r : Row) (m : String)
    (h : m ∉ r.map Prod.fst) : rowGet r m = none := by
  induction r with
  | nil => rfl
  | cons p rest ih =>
    simp only [List.map_cons, List.mem_cons, not_or] at h
    have h1 : (p.1 == m) = false := beq_eq_false_iff_ne.mpr (fun e => h.1 e.symm)
    simp [rowGet, h1, ih h.2]

theorem rowGet_isSome_of_mem (r : Row) (m : String)
    (h : m ∈ r.map Prod.fst) : (rowGet r m).isSome = true := by
  induction r with
  | nil => simp at h
  | cons p rest ih =>
    by_cases hpm : p.1 = m
    · simp [rowGet, beq_iff_eq.mpr hpm]
    · have h2 : m ∈ rest.map Prod.fst := by
        simp only [List.map_cons, List.mem_cons] at h
        rcases h with h | h
        · exact absurd h.symm hpm
        · exact h
      simp [rowGet, beq_eq_false_iff_ne.mpr hpm, ih h2]

theorem containsStr_iff (l : List String) (a : String) : l.contains a = true ↔ a ∈ l := by
  induction l with
  | nil => simp
  | cons b rest ih =>
    by_cases hab : b = a
    · simp [List.contains_cons, hab]
    · simp [List.contains_cons, beq_eq_false_iff_ne.mpr (fun e => hab e.symm), ih,
        fun e => hab (Eq.symm e)]

theorem getElem_list_congr {α : Type} (l1 l2 : List α) (h : l1 = l2) (i : Nat)
    (h1 : i < l1.length) (h2 : i < l2.length) : l1[i] = l2[i] := by
  subst h
  rfl

theorem addCol_cases (df : DataFrame) (c : String) :
    (addColIfMissing df c = df ∧ c ∈ df.columns) ∨
    (addColIfMissing df c =
        { columns := df.columns ++ [c],
          rows := df.rows.map (fun r => r ++ [(c, some (CellVal.str ""))]) } ∧
      c ∉ df.columns) := by
  unfold addColIfMissing
  split
  · next hc => exact Or.inl ⟨rfl, (containsStr_iff _ _).mp hc⟩
  · next hc => exact Or.inr ⟨rfl, fun hm => hc ((containsStr_iff _ _).mpr hm)⟩

theorem addCol_rows_length (df : DataFrame) (c : String) :
    (addColIfMissing df c).rows.length = df.rows.length := by
  rcases addCol_cases df c with ⟨he, -⟩ | ⟨he, -⟩
  · rw [he]
  · rw [he]; simp

theorem addCol_columns_mono (df : DataFrame) (c m : String) (h : m ∈ df.columns) :
    m ∈ (addColIfMissing df c).columns := by
  rcases addCol_cases df c with ⟨he, -⟩ | ⟨he, -⟩
  · rw [he]; exact h
  · rw [he]; exact List.mem_append_left _ h

theorem addCol_columns_self (df : DataFrame) (c : String) :
    c ∈ (addColIfMissing df c).columns := by
  rcases addCol_cases df c with ⟨he, hc⟩ | ⟨he, -⟩
  · rw [he]; exact hc
  · rw [he]; simp

theorem addCol_wf (df : DataFrame) (c : String) (h : DFWF df) :
    DFWF (addColIfMissing df c) := by
  rcases addCol_cases df c with ⟨he, -⟩ | ⟨he, hc⟩
  · rw [he]; exact h
  · rw [he]
    obtain ⟨hnd, hrows⟩ := h
    constructor
    · simp [List.nodup_append, hnd, hc]
    · intro row hrow
      simp only [List.mem_map] at hrow
      obtain ⟨r0, hr0, rfl⟩ := hrow
      simp [hrows r0 hr0]

theorem foldl_addCol_len (cols : List String) : ∀ df : DataFrame,
    (cols.foldl addColIfMissing df).rows.length = df.rows.length := by
  induction cols with
  | nil => intro df; rfl
  | cons c cols ih =>
    intro df
    rw [List.foldl_cons, ih, addCol_rows_length]

theorem foldl_addCol_wf (cols : List String) : ∀ df : DataFrame, DFWF df →
    DFWF (cols.foldl addColIfMissing df) := by
  induction cols with
  | nil => intro df h; exact h
  | cons c cols ih =>
    intro df h
    rw [List.foldl_cons]
    exact ih _ (addCol_wf df c h)

theorem foldl_addCol_columns_mono (cols : List String) : ∀ df : DataFrame, ∀ m ∈ df.columns,
    m ∈ (cols.foldl addColIfMissing df).columns := by
  induction cols with
  | nil => intro df m hm; exact hm
  | cons c cols ih =>
    intro df m hm
    rw [List.foldl_cons]
    exact ih _ m (addCol_columns_mono df c m hm)

theorem foldl_addCol_columns_of_mem (cols : List String) : ∀ df : DataFrame, ∀ m ∈ cols,
    m ∈ (cols.foldl addColIfMissing df).columns := by
  induction cols with
  | nil => intro df m hm; cases hm
  | cons c cols ih =>
    intro df m hm
    rw [List.foldl_cons]
    rcases List.mem_cons.mp hm with rfl | hm2
    · exact foldl_addCol_columns_mono cols _ m (addCol_columns_self df m)
    · exact ih _ m hm2

theorem foldl_addCol_master (cols : List String) : ∀ df : DataFrame,
    ∃ g : Row → Row,
      (cols.foldl addColIfMissing df).rows = df.rows.map g ∧
      (∀ row m, (∀ c ∈ cols, m ≠ c) → rowGet (g row) m = rowGet row m) ∧
      (∀ row m, m ∈ df.columns → rowGet (g row) m = rowGet row m) ∧
      (∀ row m, row.map Prod.fst = df.columns → m ∉ df.columns → m ∈ cols →
        rowGet (g row) m = some (some (CellVal.str ""))) := by
  induction cols with
  | nil =>
    intro df
    refine ⟨id, by simp, fun row m _ => rfl, fun row m _ => rfl, ?_⟩
    intro row m _ _ hm
    cases hm
  | cons c cols ih =>
    intro df
    obtain ⟨g, hmap, hg1, hg2, hg3⟩ := ih (addColIfMissing df c)
    rcases addCol_cases df c with ⟨heq, hcmem⟩ | ⟨heq, hcnot⟩
    · refine ⟨g, ?_, ?_, ?_, ?_⟩
      · rw [List.foldl_cons, hmap, heq]
      · intro row m hne
        exact hg1 row m (fun x hx => hne x (List.mem_cons_of_mem c hx))
      · intro row m hmem
        exact hg2 row m (by rw [heq]; exact hmem)
      · intro row m hkeys hnot hm
        rcases List.mem_cons.mp hm with rfl | hm2
        · exact absurd hcmem hnot
        · exact hg3 row m (by rw [heq]; exact hkeys) (by rw [heq]; exact hnot) hm2
    · refine ⟨fun r => g (r ++ [(c, some (CellVal.str ""))]), ?_, ?_, ?_, ?_⟩
      · rw [List.foldl_cons, hmap, heq]
        simp [List.map_map]
      · intro row m hne
        have hmc : m ≠ c := hne c (List.mem_cons_self c cols)
        rw [hg1 _ m (fun x hx => hne x (List.mem_cons_of_mem c hx))]
        exact rowGet_append_single_ne row c _ m hmc
      · intro row m hmem
        have hmc : m ≠ c := fun e => hcnot (e ▸ hmem)
        have hmem2 : m ∈ (addColIfMissing df c).columns := by
          rw [heq]
          exact List.mem_append_left _ hmem
        rw [hg2 _ m hmem2]
        exact rowGet_append_single_ne row c _ m hmc
      · intro row m hkeys hnot hm
        by_cases hmc : m = c
        · subst hmc
          have hmem2 : m ∈ (addColIfMissing df m).columns := by
            rw [heq]; simp
          rw [hg2 _ m hmem2]
          exact rowGet_append_single_self row m _
            (rowGet_eq_none_of_not_mem row m (by rw [hkeys]; exact hnot))
        · rcases List.mem_cons.mp hm with h | h
          · exact absurd h hmc
          · refine hg3 _ m ?_ ?_ h
            · rw [heq]; simp [hkeys]
            · rw [heq]
              simp only [DataFrame.columns, List.mem_append, List.mem_singleton, not_or]
              exact ⟨hnot, hmc⟩

/-- C6: a row whose `Question` cell is missing (`NaN`) or blank is skipped
entirely: for every environment the row processor returns the row literally
unchanged (so the derived columns keep whatever they held, and every other
cell is untouched) and writes no artifact.  Because the result is the same
for every `env`, the remote API is in particular never consulted. -/
theorem c6_blank_question_row_untouched (env : Env) (idx : Nat) (row : Row)
    (h : isSkippedQuestion (rowGetD row "Question") = true) :
    processRowStep env idx row = Except.ok (row, []) := by
  cases hq : rowGetD row "Question" with
  | none => simp [processRowStep, hq]
  | some v =>
    cases v with
    | num n =>
      rw [hq] at h
      simp [isSkippedQuestion] at h
    | str s =>
      rw [hq] at h
      have hs : pyStripTruthy s = false := by
        simpa [isSkippedQuestion] using h
      simp [processRowStep, hq, hs]

theorem c6_blank_question_row_untouched_witness :
    processRowStep envW5 0 [("Question", some (CellVal.str "   "))] =
      Except.ok ([("Question", some (CellVal.str "   "))], []) :=
  c6_blank_question_row_untouched envW5 0 [("Question", some (CellVal.str "   "))]
    (by decide)

/-- C5: when the row has a real (non-blank, textual) question and the remote
call returns any HTTP status other than 200, the row processor succeeds with
no artifact written, sets `Extracted Text` to the API-failure sentinel and
`Extracted URL` to the no-URL sentinel, and changes no other cell. -/
theorem c5_non200_sets_error_sentinels (env : Env) (idx : Nat) (row : Row)
    (s : String) (status : Nat) (msg : Option String)
    (hq : rowGetD row "Question" = some (CellVal.str s))
    (hs : pyStripTruthy s = true)
    (hapi : env.api idx = ApiOutcome.response status msg)
    (hstatus : status ≠ 200)
    (hkT : hasKey row extracted_text_col = true)
    (hkU : hasKey row extracted_url_col = true) :
    ∃ row2, processRowStep env idx row = Except.ok (row2, []) ∧
      rowGet row2 extracted_text_col = some (some (CellVal.str api_error_text)) ∧
      rowGet row2 extracted_url_col = some (some (CellVal.str no_url_text)) ∧
      ∀ m, m ≠ extracted_text_col → m ≠ extracted_url_col →
        rowGet row2 m = rowGet row m := by
  have h200 : (status == 200) = false := beq_eq_false_iff_ne.mpr hstatus
  have hTU : extracted_text_col ≠ extracted_url_col := by decide
  refine ⟨setCell (setCell row extracted_text_col (some (CellVal.str api_error_text)))
      extracted_url_col (some (CellVal.str no_url_text)), ?_, ?_, ?_, ?_⟩
  · simp [processRowStep, hq, hs, hapi, h200]
  · rw [rowGet_setCell_ne _ _ _ _ hTU]
    exact rowGet_setCell_same row extracted_text_col _ hkT
  · refine rowGet_setCell_same _ extracted_url_col _ ?_
    rw [hasKey_setCell]
    exact hkU
  · intro m hm1 hm2
    rw [rowGet_setCell_ne _ _ _ _ hm2, rowGet_setCell_ne _ _ _ _ hm1]

theorem c5_non200_sets_error_sentinels_witness :
    ∃ row2, processRowStep envW5 0 rowW5 = Except.ok (row2, []) ∧
      rowGet row2 extracted_text_col = some (some (CellVal.str api_error_text)) ∧
      rowGet row2 extracted_url_col = some (some (CellVal.str no_url_text)) ∧
      ∀ m, m ≠ extracted_text_col → m ≠ extracted_url_col →
        rowGet row2 m = rowGet rowW5 m :=
  c5_non200_sets_error_sentinels envW5 0 rowW5 "Q1" 500 none (by decide) (by decide)
    rfl (by decide) (by decide) (by decide)

theorem processRowStep_num (env : Env) (idx : Nat) (row : Row) (k : Int)
    (hq : rowGetD row "Question" = some (CellVal.num k)) :
    processRowStep env idx row = Except.error strip_attribute_error_message := by
  simp [processRowStep, hq]

theorem processRowStep_ok_of_textual (env : Env) (idx : Nat) (row : Row)
    (h : isTextualCell (rowGetD row "Question") = true) :
    ∃ row2 arts, processRowStep env idx row = Except.ok (row2, arts) := by
  cases hq : rowGetD row "Question" with
  | none => exact ⟨row, [], by simp [processRowStep, hq]⟩
  | some v =>
    cases v with
    | num n =>
      rw [hq] at h
      simp [isTextualCell] at h
    | str s =>
      cases hs : pyStripTruthy s with
      | false => exact ⟨row, [], by simp [processRowStep, hq, hs]⟩
      | true =>
        cases hapi : env.api idx with
        | exn =>
          simp only [processRowStep, hq, hs, hapi, if_true]
          exact ⟨_, _, rfl⟩
        | response status msg =>
          cases h200 : status == 200 with
          | true =>
            simp only [processRowStep, hq, hs, hapi, h200, if_true]
            exact ⟨_, _, rfl⟩
          | false =>
            simp only [processRowStep, hq, hs, hapi, h200, if_true, Bool.false_eq_true,
              if_false]
            exact ⟨_, _, rfl⟩

theorem processRowStep_arts (env : Env) (idx : Nat) (row row2 : Row) (arts : List String)
    (h : processRowStep env idx row = Except.ok (row2, arts)) :
    ∀ a ∈ arts, ∃ q, a = "messages/" ++ q := by
  cases hq : rowGetD row "Question" with
  | none =>
    rw [processRowStep, hq] at h
    obtain ⟨-, rfl⟩ := Prod.mk.injEq .. ▸ Except.ok.inj h
    simp
  | some v =>
    cases v with
    | num n =>
      rw [processRowStep_num env idx row n hq] at h
      cases h
    | str s =>
      cases hs : pyStripTruthy s with
      | false =>
        simp only [processRowStep, hq, hs, Bool.false_eq_true, if_false] at h
        obtain ⟨-, rfl⟩ := Prod.mk.injEq .. ▸ Except.ok.inj h
        simp
      | true =>
        cases hapi : env.api idx with
        | exn =>
          simp only [processRowStep, hq, hs, hapi, if_true] at h
          obtain ⟨-, rfl⟩ := Prod.mk.injEq .. ▸ Except.ok.inj h
          simp
        | response status msg =>
          cases h200 : status == 200 with
          | true =>
            simp only [processRowStep, hq, hs, hapi, h200, if_true] at h
            obtain ⟨-, rfl⟩ := Prod.mk.injEq .. ▸ Except.ok.inj h
            intro a ha
            rcases List.mem_singleton.mp ha with rfl
            exact ⟨_, rfl⟩
          | false =>
            simp only [processRowStep, hq, hs, hapi, h200, if_true, Bool.false_eq_true,
              if_false] at h
            obtain ⟨-, rfl⟩ := Prod.mk.injEq .. ▸ Except.ok.inj h
            simp

theorem processRowStep_frame (env : Env) (idx : Nat) (row row2 : Row) (arts : List String)
    (h : processRowStep env idx row = Except.ok (row2, arts)) (m : String)
    (h1 : m ≠ extracted_text_col) (h2 : m ≠ extracted_url_col) :
    rowGet row2 m = rowGet row m := by
  cases hq : rowGetD row "Question" with
  | none =>
    rw [processRowStep, hq] at h
    obtain ⟨rfl, -⟩ := Prod.mk.injEq .. ▸ Except.ok.inj h
    rfl
  | some v =>
    cases v with
    | num n =>
      rw [processRowStep_num env idx row n hq] at h
      cases h
    | str s =>
      cases hs : pyStripTruthy s with
      | false =>
        simp only [processRowStep, hq, hs, Bool.false_eq_true, if_false] at h
        obtain ⟨rfl, -⟩ := Prod.mk.injEq .. ▸ Except.ok.inj h
        rfl
      | true =>
        cases hapi : env.api idx with
        | exn =>
          simp only [processRowStep, hq, hs, hapi, if_true] at h
          obtain ⟨rfl, -⟩ := Prod.mk.injEq .. ▸ Except.ok.inj h
          rw [rowGet_setCell_ne _ _ _ _ h2, rowGet_setCell_ne _ _ _ _ h1]
        | response status msg =>
          cases h200 : status == 200 with
          | true =>
            simp only [processRowStep, hq, hs, hapi, h200, if_true] at h
            obtain ⟨rfl, -⟩ := Prod.mk.injEq .. ▸ Except.ok.inj h
            rw [rowGet_setCell_ne _ _ _ _ h2, rowGet_setCell_ne _ _ _ _ h1]
          | false =>
            simp only [processRowStep, hq, hs, hapi, h200, if_true, Bool.false_eq_true,
              if_false] at h
            obtain ⟨rfl, -⟩ := Prod.mk.injEq .. ▸ Except.ok.inj h
            rw [rowGet_setCell_ne _ _ _ _ h2, rowGet_setCell_ne _ _ _ _ h1]

theorem processAllRows_ok_of_textual (env : Env) :
    ∀ rows : List Row, ∀ idx : Nat,
    (∀ row ∈ rows, isTextualCell (rowGetD row "Question") = true) →
    ∃ arts rows2, processAllRows env idx rows = (arts, Except.ok rows2) ∧
      rows2.length = rows.length ∧
      ∀ a ∈ arts, ∃ q, a = "messages/" ++ q := by
  intro rows
  induction rows with
  | nil =>
    intro idx _
    exact ⟨[], [], rfl, rfl, by simp⟩
  | cons row rest ih =>
    intro idx hall
    obtain ⟨row2, arts, hstep⟩ :=
      processRowStep_ok_of_textual env idx row (hall row (List.mem_cons_self row rest))
    obtain ⟨arts2, rows2, hrec, hlen, harts2⟩ :=
      ih (idx + 1) (fun r hr => hall r (List.mem_cons_of_mem row hr))
    refine ⟨arts ++ arts2, row2 :: rows2, ?_, by simp [hlen], ?_⟩
    · simp [processAllRows, hstep, hrec]
    · intro a ha
      rcases List.mem_append.mp ha with ha | ha
      · exact processRowStep_arts env idx row row2 arts hstep a ha
      · exact harts2 a ha

theorem processAllRows_frame (env : Env) :
    ∀ rows : List Row, ∀ idx : Nat, ∀ arts : List String, ∀ rows2 : List Row,
    processAllRows env idx rows = (arts, Except.ok rows2) →
    rows2.length = rows.length ∧
    ∀ i, (hi : i < rows2.length) → (hi2 : i < rows.length) → ∀ m : String,
      m ≠ extracted_text_col → m ≠ extracted_url_col →
      rowGet (rows2[i]) m = rowGet (rows[i]) m := by
  intro rows
  induction rows with
  | nil =>
    intro idx arts rows2 h
    simp only [processAllRows, Prod.mk.injEq] at h
    obtain ⟨-, h2⟩ := h
    obtain rfl := Except.ok.inj h2
    refine ⟨rfl, ?_⟩
    intro i hi
    simp at hi
  | cons row rest ih =>
    intro idx arts rows2 h
    simp only [processAllRows] at h
    cases hstep : processRowStep env idx row with
    | error e =>
      rw [hstep] at h
      simp at h
    | ok pr =>
      obtain ⟨row2, arts1⟩ := pr
      rw [hstep] at h
      cases hrec : processAllRows env (idx + 1) rest with
      | mk arts2 res =>
        rw [hrec] at h
        cases res with
        | error e => simp at h
        | ok rows2b =>
          simp only [Prod.mk.injEq] at h
          obtain ⟨-, h2⟩ := h
          obtain rfl := Except.ok.inj h2
          obtain ⟨hlen, hframe⟩ := ih (idx + 1) arts2 rows2b hrec
          refine ⟨by simp [hlen], ?_⟩
          intro i hi hi2 m hm1 hm2
          cases i with
          | zero =>
            simpa using processRowStep_frame env idx row row2 arts1 hstep m hm1 hm2
          | succ j =>
            have hj : j < rows2b.length := by simpa using hi
            have hj2 : j < rest.length := by simpa using hi2
            simpa using hframe j hj hj2 m hm1 hm2

theorem processAllRows_error_of_bad (env : Env) :
    ∀ rows : List Row, ∀ idx : Nat,
    (∃ row ∈ rows, isTextualCell (rowGetD row "Question") = false) →
    ∃ arts, processAllRows env idx rows = (arts, Except.error strip_attribute_error_message) ∧
      ∀ a ∈ arts, ∃ q, a = "messages/" ++ q := by
  intro rows
  induction rows with
  | nil =>
    intro idx h
    simp at h
  | cons row rest ih =>
    intro idx h
    by_cases hrow : isTextualCell (rowGetD row "Question") = true
    · have hrest : ∃ r ∈ rest, isTextualCell (rowGetD r "Question") = false := by
        rcases h with ⟨r, hr, hbad⟩
        rcases List.mem_cons.mp hr with rfl | hr2
        · rw [hrow] at hbad
          cases hbad
        · exact ⟨r, hr2, hbad⟩
      obtain ⟨row2, arts1, hstep⟩ := processRowStep_ok_of_textual env idx row hrow
      obtain ⟨arts2, hrec, harts⟩ := ih (idx + 1) hrest
      refine ⟨arts1 ++ arts2, ?_, ?_⟩
      · simp [processAllRows, hstep, hrec]
      · intro a ha
        rcases List.mem_append.mp ha with ha | ha
        · exact processRowStep_arts env idx row row2 arts1 hstep a ha
        · exact harts a ha
    · have hnum : ∃ k, rowGetD row "Question" = some (CellVal.num k) := by
        cases hq : rowGetD row "Question" with
        | none =>
          rw [hq] at hrow
          simp [isTextualCell] at hrow
        | some v =>
          cases v with
          | str s =>
            rw [hq] at hrow
            simp [isTextualCell] at hrow
          | num k => exact ⟨k, rfl⟩
      obtain ⟨k, hq⟩ := hnum
      refine ⟨[], ?_, by simp⟩
      simp [processAllRows, processRowStep_num env idx row k hq]

theorem process_file_reaches_rows (env : Env) (filename product version : String)
    (df0 : DataFrame)
    (hext : ext_lower filename = ".xlsx" ∨ ext_lower filename = ".csv")
    (hparse : env.parse = Except.ok df0)
    (hq : df0.columns.contains "Question" = true) :
    process_file env filename product version =
      (match processAllRows env 0 (ensureColumns df0).rows with
      | (arts, Except.error e) =>
          { result := HandlerResult.jsonError e,
            writes := ("output/" ++ filename) :: arts }
      | (arts, Except.ok rows2) =>
          { result := HandlerResult.fileResponse
              ("output/" ++ ("processed_" ++ env.stamp ++ ext_lower filename))
              ("processed_" ++ env.stamp ++ ext_lower filename)
              { columns := (ensureColumns df0).columns, rows := rows2 },
            writes := ("output/" ++ filename) :: arts ++
              ["output/" ++ ("processed_" ++ env.stamp ++ ext_lower filename)] }) := by
  have hcond : (ext_lower filename == ".xlsx" || ext_lower filename == ".csv") = true := by
    rcases hext with h | h <;> simp [h]
  unfold process_file
  dsimp only
  rw [hcond, hparse]
  simp only [if_true, hq]

theorem ensureColumns_rows_length (df : DataFrame) :
    (ensureColumns df).rows.length = df.rows.length :=
  foldl_addCol_len all_added_columns df

/-- C1: once a spreadsheet of questions is accepted (a supported extension,
it parses, it has a `Question` column, and its `Question` cells are text or
missing), the batch completes for EVERY behaviour of the remote API: however
any row's call fails — any non-200 status or a transport exception, in any
combination across rows — the handler still returns a `fileResponse`, still
writes the output spreadsheet after the working file and the artifacts, and
the output table still carries every row of the input. -/
theorem c1_row_failures_never_abort_batch (env : Env) (filename product version : String)
    (df0 : DataFrame)
    (hext : ext_lower filename = ".xlsx" ∨ ext_lower filename = ".csv")
    (hparse : env.parse = Except.ok df0)
    (hq : df0.columns.contains "Question" = true)
    (htext : ∀ row ∈ df0.rows, isTextualCell (rowGetD row "Question") = true) :
    ∃ arts table,
      (process_file env filename product version).result =
        HandlerResult.fileResponse
          ("output/" ++ ("processed_" ++ env.stamp ++ ext_lower filename))
          ("processed_" ++ env.stamp ++ ext_lower filename) table ∧
      (process_file env filename product version).writes =
        ("output/" ++ filename) :: arts ++
          ["output/" ++ ("processed_" ++ env.stamp ++ ext_lower filename)] ∧
      table.rows.length = df0.rows.length := by
  obtain ⟨g, hmap, hg1, -, -⟩ := foldl_addCol_master all_added_columns df0
  have hQnotin : ∀ c ∈ all_added_columns, "Question" ≠ c := by decide
  have htext2 : ∀ row ∈ (ensureColumns df0).rows,
      isTextualCell (rowGetD row "Question") = true := by
    intro row hrow
    have hmap2 : (ensureColumns df0).rows = df0.rows.map g := hmap
    rw [hmap2] at hrow
    obtain ⟨r0, hr0, rfl⟩ := List.mem_map.mp hrow
    have hpres : rowGet (g r0) "Question" = rowGet r0 "Question" := hg1 r0 "Question" hQnotin
    have heq : rowGetD (g r0) "Question" = rowGetD r0 "Question" := by
      unfold rowGetD
      rw [hpres]
    rw [heq]
    exact htext r0 hr0
  obtain ⟨arts, rows2, hbatch, hlen, -⟩ :=
    processAllRows_ok_of_textual env (ensureColumns df0).rows 0 htext2
  rw [process_file_reaches_rows env filename product version df0 hext hparse hq, hbatch]
  refine ⟨arts, _, rfl, rfl, ?_⟩
  rw [show ({ columns := (ensureColumns df0).columns, rows := rows2 } : DataFrame).rows.length
      = rows2.length from rfl, hlen]
  exact ensureColumns_rows_length df0

theorem c1_row_failures_never_abort_batch_witness :
    ∃ arts table,
      (process_file envW1 "batch.csv" "p" "v").result =
        HandlerResult.fileResponse
          ("output/" ++ ("processed_" ++ envW1.stamp ++ ext_lower "batch.csv"))
          ("processed_" ++ envW1.stamp ++ ext_lower "batch.csv") table ∧
      (process_file envW1 "batch.csv" "p" "v").writes =
        ("output/" ++ "batch.csv") :: arts ++
          ["output/" ++ ("processed_" ++ envW1.stamp ++ ext_lower "batch.csv")] ∧
      table.rows.length = dfW1.rows.length :=
  c1_row_failures_never_abort_batch envW1 "batch.csv" "p" "v" dfW1
    (Or.inr (by decide)) rfl (by decide) (by decide)

/-- C3 (amended): an upload whose extension is neither `.xlsx` nor `.csv`
gets the structured unsupported-format error, and the handler writes no
output spreadsheet and no artifact — but the filesystem is NOT untouched:
the uploaded bytes have already been persisted to `output/<filename>`, which
is exactly the one write the request performs. -/
theorem c3_unsupported_ext_error_only_working_file (env : Env)
    (filename product version : String)
    (h : ¬ (ext_lower filename = ".xlsx" ∨ ext_lower filename = ".csv")) :
    (process_file env filename product version).result =
      HandlerResult.jsonError unsupported_format_error ∧
    (process_file env filename product version).writes = ["output/" ++ filename] := by
  push_neg at h
  have hcond : (ext_lower filename == ".xlsx" || ext_lower filename == ".csv") = false := by
    simp [beq_eq_false_iff_ne.mpr h.1, beq_eq_false_iff_ne.mpr h.2]
  unfold process_file
  dsimp only
  rw [hcond]
  simp

theorem c3_unsupported_ext_error_only_working_file_witness :
    (process_file envW4b "report.txt" "p" "v").result =
      HandlerResult.jsonError unsupported_format_error ∧
    (process_file envW4b "report.txt" "p" "v").writes = ["output/" ++ "report.txt"] :=
  c3_unsupported_ext_error_only_working_file envW4b "report.txt" "p" "v" (by decide)

/-- C3 is false as stated: for the `.txt` upload the structured error does
come back, but the request does write a file — the uploaded bytes land in
`output/notes.txt` before the extension is ever checked, so the filesystem
is not unchanged. -/
theorem c3_counterexample :
    (process_file envW1 "notes.txt" "p" "v").result =
      HandlerResult.jsonError unsupported_format_error ∧
    (process_file envW1 "notes.txt" "p" "v").writes = ["output/notes.txt"] ∧
    (process_file envW1 "notes.txt" "p" "v").writes ≠ [] := by
  decide

/-- C4 (amended): the working file's name is not request-unique: it is
exactly `output/<uploaded filename>` — built from the uploaded name alone,
with no timestamp and no sanitization — and it is the first write of every
request, whatever the environment, clock, product or version. -/
theorem c4_working_file_name_from_filename_only (env : Env)
    (filename product version : String) :
    (process_file env filename product version).writes.head? =
      some ("output/" ++ filename) := by
  unfold process_file
  dsimp only
  cases hcond : (ext_lower filename == ".xlsx" || ext_lower filename == ".csv") with
  | false => rfl
  | true =>
    cases env.parse with
    | error e => rfl
    | ok df =>
      dsimp only
      cases hq : df.columns.contains "Question" with
      | false => rfl
      | true =>
        generalize processAllRows env 0 (ensureColumns df).rows = pr
        cases pr with
        | mk arts res =>
          cases res with
          | error e => rfl
          | ok rows2 => rfl

/-- C4 is false as stated: two distinct concurrent requests — different
clocks (`envW1.stamp` versus `envW4b.stamp`) and different products — that
upload a file of the same name both persist the upload to the very same
working path `output/data.csv`; nothing request-unique enters that name. -/
theorem c4_counterexample :
    envW1.stamp ≠ envW4b.stamp ∧
    "output/data.csv" ∈ (process_file envW1 "data.csv" "p1" "v1").writes ∧
    "output/data.csv" ∈ (process_file envW4b "data.csv" "p2" "v2").writes := by
  decide

/-- C10: an accepted spreadsheet holding even one non-missing, non-string
`Question` value (for instance a number) makes the whole request fail:
`question.strip()` raises, the outer handler answers with a structured JSON
error, and no output spreadsheet is written — the request's writes are the
working file plus whatever artifacts earlier rows had already produced. -/
theorem c10_nonstring_question_aborts (env : Env) (filename product version : String)
    (df0 : DataFrame)
    (hext : ext_lower filename = ".xlsx" ∨ ext_lower filename = ".csv")
    (hparse : env.parse = Except.ok df0)
    (hq : df0.columns.contains "Question" = true)
    (hbad : ∃ row ∈ df0.rows, isTextualCell (rowGetD row "Question") = false) :
    ∃ arts,
      (process_file env filename product version).result =
        HandlerResult.jsonError strip_attribute_error_message ∧
      (process_file env filename product version).writes =
        ("output/" ++ filename) :: arts ∧
      ∀ a ∈ arts, ∃ q, a = "messages/" ++ q := by
  obtain ⟨g, hmap, hg1, -, -⟩ := foldl_addCol_master all_added_columns df0
  have hQnotin : ∀ c ∈ all_added_columns, "Question" ≠ c := by decide
  have hbad2 : ∃ row ∈ (ensureColumns df0).rows,
      isTextualCell (rowGetD row "Question") = false := by
    obtain ⟨r0, hr0, hb⟩ := hbad
    refine ⟨g r0, ?_, ?_⟩
    · have hmap2 : (ensureColumns df0).rows = df0.rows.map g := hmap
      rw [hmap2]
      exact List.mem_map.mpr ⟨r0, hr0, rfl⟩
    · have hpres : rowGet (g r0) "Question" = rowGet r0 "Question" := hg1 r0 "Question" hQnotin
      have heq : rowGetD (g r0) "Question" = rowGetD r0 "Question" := by
        unfold rowGetD
        rw [hpres]
      rw [heq]
      exact hb
  obtain ⟨arts, hbatch, harts⟩ :=
    processAllRows_error_of_bad env (ensureColumns df0).rows 0 hbad2
  rw [process_file_reaches_rows env filename product version df0 hext hparse hq, hbatch]
  exact ⟨arts, rfl, rfl, harts⟩

theorem c10_nonstring_question_aborts_witness :
    ∃ arts,
      (process_file envW10 "q.csv" "p" "v").result =
        HandlerResult.jsonError strip_attribute_error_message ∧
      (process_file envW10 "q.csv" "p" "v").writes =
        ("output/" ++ "q.csv") :: arts ∧
      ∀ a ∈ arts, ∃ q, a = "messages/" ++ q :=
  c10_nonstring_question_aborts envW10 "q.csv" "p" "v" dfW10
    (Or.inr (by decide)) rfl (by decide)
    ⟨[("Question", some (CellVal.num 3))], by decide⟩

theorem process_file_unsupported_eq (env : Env) (filename product version : String)
    (h : ¬ (ext_lower filename = ".xlsx" ∨ ext_lower filename = ".csv")) :
    process_file env filename product version =
      { result := HandlerResult.jsonError unsupported_format_error,
        writes := ["output/" ++ filename] } := by
  push_neg at h
  have hcond : (ext_lower filename == ".xlsx" || ext_lower filename == ".csv") = false := by
    simp [beq_eq_false_iff_ne.mpr h.1, beq_eq_false_iff_ne.mpr h.2]
  unfold process_file
  dsimp only
  rw [hcond]
  rfl

theorem process_file_missing_question_eq (env : Env) (filename product version : String)
    (df0 : DataFrame)
    (hext : ext_lower filename = ".xlsx" ∨ ext_lower filename = ".csv")
    (hparse : env.parse = Except.ok df0)
    (hq : df0.columns.contains "Question" = false) :
    process_file env filename product version =
      { result := HandlerResult.jsonError missing_question_error,
        writes := ["output/" ++ filename] } := by
  have hcond : (ext_lower filename == ".xlsx" || ext_lower filename == ".csv") = true := by
    rcases hext with h | h <;> simp [h]
  unfold process_file
  dsimp only
  rw [hcond, hparse]
  dsimp only
  rw [hq]
  rfl

theorem ensureColumns_columns_of_mem (df : DataFrame) (m : String)
    (hm : m ∈ all_added_columns) : m ∈ (ensureColumns df).columns :=
  foldl_addCol_columns_of_mem all_added_columns df m hm

theorem ensureColumns_master (df : DataFrame) :
    ∃ g : Row → Row,
      (ensureColumns df).rows = df.rows.map g ∧
      (∀ row m, (∀ c ∈ all_added_columns, m ≠ c) → rowGet (g row) m = rowGet row m) ∧
      (∀ row m, m ∈ df.columns → rowGet (g row) m = rowGet row m) ∧
      (∀ row m, row.map Prod.fst = df.columns → m ∉ df.columns → m ∈ all_added_columns →
        rowGet (g row) m = some (some (CellVal.str ""))) :=
  foldl_addCol_master all_added_columns df

/-- C9: for every accepted input frame (it parsed, and pandas frames are
rectangular, `DFWF`), whenever the handler returns an output table, that
table has as many rows as the input, every evaluation metric column is
present in it, and in every row each metric cell exists: a metric column the
input already had keeps each row's original value, and one the input lacked
holds the empty string. -/
theorem c9_evaluation_columns_invariant (env : Env) (filename product version : String)
    (df0 : DataFrame) (path name : String) (table : DataFrame)
    (hparse : env.parse = Except.ok df0) (hwf : DFWF df0)
    (hrun : (process_file env filename product version).result =
      HandlerResult.fileResponse path name table) :
    table.rows.length = df0.rows.length ∧
    (∀ m ∈ evaluation_metrics, m ∈ table.columns) ∧
    (∀ i, (hi : i < table.rows.length) → (hi2 : i < df0.rows.length) →
      ∀ m ∈ evaluation_metrics,
        (rowGet (table.rows[i]) m).isSome = true ∧
        (m ∈ df0.columns → rowGet (table.rows[i]) m = rowGet (df0.rows[i]) m) ∧
        (m ∉ df0.columns → rowGet (table.rows[i]) m = some (some (CellVal.str "")))) := by
  by_cases hext : ext_lower filename = ".xlsx" ∨ ext_lower filename = ".csv"
  swap
  · rw [process_file_unsupported_eq env filename product version hext] at hrun
    exact HandlerResult.noConfusion hrun
  cases hqc : df0.columns.contains "Question" with
  | false =>
    rw [process_file_missing_question_eq env filename product version df0 hext hparse hqc]
      at hrun
    exact HandlerResult.noConfusion hrun
  | true =>
    rw [process_file_reaches_rows env filename product version df0 hext hparse hqc] at hrun
    obtain ⟨g, hmap, -, hg2, hg3⟩ := ensureColumns_master df0
    have henslen : (ensureColumns df0).rows.length = df0.rows.length :=
      ensureColumns_rows_length df0
    have hcolsmem : ∀ m ∈ all_added_columns, m ∈ (ensureColumns df0).columns :=
      ensureColumns_columns_of_mem df0
    revert hrun hmap henslen hcolsmem
    generalize ensureColumns df0 = df2
    intro hrun hmap henslen hcolsmem
    revert hrun
    generalize hbatch : processAllRows env 0 df2.rows = pr
    intro hrun
    rcases pr with ⟨arts, res⟩
    cases res with
    | error e => exact HandlerResult.noConfusion hrun
    | ok rows2 =>
      dsimp only at hrun
      obtain ⟨-, -, htab⟩ := HandlerResult.fileResponse.inj hrun
      have hc : table.columns = df2.columns := by
        rw [← htab]
      have hr : table.rows = rows2 := by
        rw [← htab]
      rw [hc, hr]
      obtain ⟨hlen2, hframe⟩ := processAllRows_frame env df2.rows 0 arts rows2 hbatch
      refine ⟨?_, ?_, ?_⟩
      · rw [hlen2, henslen]
      · intro m hm
        exact hcolsmem m (List.mem_append_left _ hm)
      · intro i hi hi2 m hm
        have hall : ∀ x ∈ evaluation_metrics,
            x ≠ extracted_text_col ∧ x ≠ extracted_url_col := by decide
        have hTU := hall m hm
        have hi3 : i < df2.rows.length := by
          rw [henslen]
          exact hi2
        have hstep1 : rowGet (rows2[i]) m = rowGet (df2.rows[i]) m :=
          hframe i hi hi3 m hTU.1 hTU.2
        have himap : i < (df0.rows.map g).length := by simpa using hi2
        have hstep2 : df2.rows[i] = (df0.rows.map g)[i] :=
          getElem_list_congr _ _ hmap i hi3 himap
        have hstep3 : (df0.rows.map g)[i] = g (df0.rows[i]) := by
          simp
        have hval : rowGet (rows2[i]) m = rowGet (g (df0.rows[i])) m := by
          rw [hstep1, hstep2, hstep3]
        have hrowmem : df0.rows[i] ∈ df0.rows := by
          exact List.getElem_mem _
        have hkeys : (df0.rows[i]).map Prod.fst = df0.columns := hwf.2 _ hrowmem
        have hmm : m ∈ all_added_columns := List.mem_append_left _ hm
        refine ⟨?_, ?_, ?_⟩
        · rw [hval]
          by_cases hcol : m ∈ df0.columns
          · rw [hg2 _ m hcol]
            apply rowGet_isSome_of_mem
            rw [hkeys]
            exact hcol
          · rw [hg3 _ m hkeys hcol hmm]
            rfl
        · intro hcol
          rw [hval, hg2 _ m hcol]
        · intro hcol
          rw [hval, hg3 _ m hkeys hcol hmm]

theorem c9_evaluation_columns_invariant_witness :
    (resultTable (process_file envW9 "w9.csv" "p" "v").result).rows.length =
      dfW9.rows.length ∧
    (∀ m ∈ evaluation_metrics,
      m ∈ (resultTable (process_file envW9 "w9.csv" "p" "v").result).columns) ∧
    (∀ i,
      (hi : i < (resultTable (process_file envW9 "w9.csv" "p" "v").result).rows.length) →
      (hi2 : i < dfW9.rows.length) →
      ∀ m ∈ evaluation_metrics,
        (rowGet ((resultTable (process_file envW9 "w9.csv" "p" "v").result).rows[i])
          m).isSome = true ∧
        (m ∈ dfW9.columns →
          rowGet ((resultTable (process_file envW9 "w9.csv" "p" "v").result).rows[i]) m =
            rowGet (dfW9.rows[i]) m) ∧
        (m ∉ dfW9.columns →
          rowGet ((resultTable (process_file envW9 "w9.csv" "p" "v").result).rows[i]) m =
            some (some (CellVal.str "")))) :=
  c9_evaluation_columns_invariant envW9 "w9.csv" "p" "v" dfW9
    (resultPath (process_file envW9 "w9.csv" "p" "v").result)
    (resultName (process_file envW9 "w9.csv" "p" "v").result)
    (resultTable (process_file envW9 "w9.csv" "p" "v").result)
    rfl ⟨by decide, by decide⟩ (by decide)
